import Mathlib

/-!
Shallow embedding of the Casbin CosmosDB adapter (`cosmosadapter` Go package).

The embedding follows the Go source file by file:
  - `CasbinRule` mirrors the persisted record struct (`id, pType, v0..v5`,
    all strings; unset fields are the empty string, never absent).
  - the Casbin model (`model.Model = map[string]map[string]*Assertion`) is
    embedded as an association list from section key to an association list
    from policy-type key to the assertion's `Policy` list of rules;
  - Go runtime panics (string slicing out of range, nil-map / nil-pointer
    dereference, slice index out of range) are made explicit with the
    `GoResult.panic` outcome; returned `error` values are `GoResult.err`.
  - the external CosmosDB data plane is modelled as a list of records
    partitioned by the `/pType` path (as provisioned by
    `createCollectionIfNotExist`); `NewQueryItemsPager` executes its query
    inside the single partition named by the supplied partition key, so a
    query issued with partition key `pk` only ever returns items whose
    `pType` equals `pk`.  Network-level failures of a query are modelled
    by an explicit `Option String` error parameter.
  - the external checksum `meow.Checksum 0` is kept abstract: every
    definition that needs it is parameterized by a function
    `checksum : String → Nat` (the Go value is a `uint64`; only its hex
    digest is ever used).
-/

namespace CosmosAdapter

/-- CasbinRule mirrors the Go struct `CasbinRule`: the persisted record with
its content-addressed `id`, the policy type tag `pType`, and the six
positional value slots `v0..v5` (empty string means "unset"). -/
structure CasbinRule where
  id : String
  pType : String
  v0 : String
  v1 : String
  v2 : String
  v3 : String
  v4 : String
  v5 : String
  deriving DecidableEq

/-- PolicyList embeds the `Policy [][]string` field of a Casbin assertion. -/
abbrev PolicyList := List (List String)

/-- AssertionMap embeds Go's `map[string]*Assertion` (policy-type key to
assertion) restricted to the only field the adapter touches, `Policy`. -/
abbrev AssertionMap := List (String × PolicyList)

/-- Model embeds Go's `model.Model = map[string]AssertionMap` (section key
`"p"` / `"g"` to assertion map). -/
abbrev Model := List (String × AssertionMap)

/-- GoResult distinguishes the three ways a Go operation in this package can
finish: a normal value, a returned `error`, or a runtime panic. -/
inductive GoResult (α : Type) where
  | ok : α → GoResult α
  | err : String → GoResult α
  | panic : GoResult α
  deriving DecidableEq

/-- lookupA is Go map indexing for the association lists embedding maps:
`lookupA m k` is `some v` when key `k` is bound to `v`, else `none`
(Go returns the zero value `nil` for a missing key). -/
def lookupA {α : Type} : List (String × α) → String → Option α
  | [], _ => none
  | (k, v) :: t, key => if k = key then some v else lookupA t key

/-- updateA rebinds key `k` to `v` in an association list, mirroring an
in-place update through a Go map entry (only existing keys are ever
updated by the adapter, through the `*Assertion` pointer). -/
def updateA {α : Type} : List (String × α) → String → α → List (String × α)
  | [], _, _ => []
  | (k, v) :: t, key, nv => if k = key then (k, nv) :: t else (k, v) :: updateA t key nv

/-- firstChar embeds the Go byte-slicing `key[:1]` on a non-empty string
(the policy-type tags are ASCII, so the first byte is the first
character).  The empty-string panic is handled at the call site. -/
def firstChar (s : String) : String := String.mk (s.data.take 1)

/-- lineTokens is the token accumulation of `loadPolicyLine`: the chain of
`if line.Vk != "" \x7b tokens = append(tokens, line.Vk) \x7d else \x7b goto LineEnd \x7d`
blocks.  Each branch below returns the `tokens` value that reaches the
`LineEnd` label when `Vk` is the first empty field. -/
def lineTokens (line : CasbinRule) : List String :=
  if line.v0 = "" then []
  else if line.v1 = "" then [line.v0]
  else if line.v2 = "" then [line.v0, line.v1]
  else if line.v3 = "" then [line.v0, line.v1, line.v2]
  else if line.v4 = "" then [line.v0, line.v1, line.v2, line.v3]
  else if line.v5 = "" then [line.v0, line.v1, line.v2, line.v3, line.v4]
  else [line.v0, line.v1, line.v2, line.v3, line.v4, line.v5]

/-- loadPolicyLine embeds the Go `loadPolicyLine(line, model)`:
`sec := key[:1]` panics when `key` is empty; `model[sec][key].Policy`
panics when either map lookup misses (nil map / nil `*Assertion`);
otherwise the statement at `LineEnd` appends `tokens` — unconditionally,
whether or not `tokens` is empty — to the assertion's policy list. -/
def loadPolicyLine (line : CasbinRule) (m : Model) : GoResult Model :=
  if line.pType = "" then GoResult.panic
  else
    let key := line.pType
    let sec := firstChar key
    match lookupA m sec with
    | none => GoResult.panic
    | some am =>
      match lookupA am key with
      | none => GoResult.panic
      | some policy =>
        GoResult.ok (updateA m sec (updateA am key (policy ++ [lineTokens line])))

/-- loadLines embeds the `for _, line := range lines \x7b loadPolicyLine(line, model) \x7d`
loop shared by `LoadPolicy` and `LoadFilteredPolicy`; a panic in any
iteration aborts the whole call. -/
def loadLines : List CasbinRule → Model → GoResult Model
  | [], m => GoResult.ok m
  | l :: ls, m =>
    match loadPolicyLine l m with
    | GoResult.ok m2 => loadLines ls m2
    | GoResult.err e => GoResult.err e
    | GoResult.panic => GoResult.panic

/-- stringsJoin embeds Go's `strings.Join(elems, sep)`: empty for an empty
slice, otherwise the first element followed by `sep`-prefixed copies of
the rest. -/
def stringsJoin (elems : List String) (sep : String) : String :=
  match elems with
  | [] => ""
  | e :: rest => rest.foldl (fun acc x => acc ++ sep ++ x) e

/-- toHex embeds `fmt.Sprintf("%x", sum)`: lowercase hexadecimal digits of
the checksum, no padding and no prefix (`0` prints as `"0"`). -/
def toHex (n : Nat) : String := String.mk (Nat.toDigits 16 n)

/-- policyID embeds the Go `policyID(ptype, rule)`:
`strings.Join(append([]string\x7bptype\x7d, rule...), ",")` checksummed and
hex-printed.  The external `meow.Checksum 0` is the `checksum` parameter. -/
def policyID (checksum : String → Nat) (ptype : String) (rule : List String) : String :=
  toHex (checksum (stringsJoin (ptype :: rule) ","))

/-- savePolicyLine embeds the Go `savePolicyLine(ptype, rule)`: the record
whose slot `Vk` is `rule[k]` when `len(rule) > k` and the empty string
otherwise (`List.getD` is exactly that guard), with the content-addressed
id. -/
def savePolicyLine (checksum : String → Nat) (ptype : String) (rule : List String) : CasbinRule :=
  { id := policyID checksum ptype rule
    pType := ptype
    v0 := rule.getD 0 ""
    v1 := rule.getD 1 ""
    v2 := rule.getD 2 ""
    v3 := rule.getD 3 ""
    v4 := rule.getD 4 ""
    v5 := rule.getD 5 "" }

/-- Adapter embeds the `adapter` struct state the policy operations read or
write: the unguarded `filtered` flag and the backing container contents
(the connection handles are external and carry no policy state). -/
structure Adapter where
  filtered : Bool
  store : List CasbinRule
  deriving DecidableEq

/-- queryPartition embeds running `SELECT * FROM c` through
`NewQueryItemsPager` with partition key `pk` on a container partitioned by
`/pType`: the query is executed inside that single partition, so exactly
the stored records whose `pType` equals `pk` come back. -/
def queryPartition (store : List CasbinRule) (pk : String) : List CasbinRule :=
  store.filter (fun r => r.pType = pk)

/-- LoadPolicy embeds the Go `LoadPolicy`: `a.filtered = false` is assigned
before the query runs; `SELECT * FROM c` is issued with partition key
`"p"`; every returned record is decoded into the model by
`loadPolicyLine`.  `qerr` models a network/decode failure of the pager
(returned verbatim, after the flag was already cleared). -/
def LoadPolicy (a : Adapter) (m : Model) (qerr : Option String) : Adapter × GoResult Model :=
  let a2 : Adapter := { a with filtered := false }
  match qerr with
  | some e => (a2, GoResult.err e)
  | none => (a2, loadLines (queryPartition a.store "p") m)

/-- LoadFilteredPolicy embeds the Go `LoadFilteredPolicy`: `a.filtered = true`
is assigned before the pager loop; the caller-supplied query is executed
by the external store, modelled by its result — the `fetched` record list —
and a possible failure `qerr` (returned verbatim, after the flag was
already set); on success each fetched record is decoded into the model. -/
def LoadFilteredPolicy (a : Adapter) (m : Model) (fetched : List CasbinRule)
    (qerr : Option String) : Adapter × GoResult Model :=
  let a2 : Adapter := { a with filtered := true }
  match qerr with
  | some e => (a2, GoResult.err e)
  | none => (a2, loadLines fetched m)

/-- IsFiltered embeds the Go `IsFiltered`: it returns the flag. -/
def IsFiltered (a : Adapter) : Bool := a.filtered

/-- sectionLines embeds the `for ptype, ast := range model[sec]` loop of
`SavePolicy`: one encoded record per rule of every assertion of the
section (ranging over a missing section is a no-op in Go). -/
def sectionLines (checksum : String → Nat) (m : Model) (sec : String) : List CasbinRule :=
  ((lookupA m sec).getD []).flatMap (fun pa => pa.2.map (fun rule => savePolicyLine checksum pa.1 rule))

/-- SavePolicy embeds the Go `SavePolicy`: when the `filtered` flag is set it
returns the error `cannot save a filtered policy` at once, before
`dropCollection` or any store write, leaving the container untouched;
otherwise it drops and recreates the container and inserts one encoded
record per rule of sections `"p"` and `"g"` (store-side failures of the
drop and the inserts are external and elided — the successful path is
modelled). -/
def SavePolicy (checksum : String → Nat) (a : Adapter) (m : Model) : Adapter × Option String :=
  if a.filtered then (a, some "cannot save a filtered policy")
  else
    let lines := sectionLines checksum m "p" ++ sectionLines checksum m "g"
    ({ a with store := lines }, none)

/-- slotName is the record field name `"vk"` used as selector key and, with
an `@` prefix, as query parameter name in `RemoveFilteredPolicy`. -/
def slotName (k : Nat) : String := "v" ++ toString k

/-- slotIndex is the Go slice index `k - fieldIndex` into `fieldValues`
(computed in `int`; under the guard of `slotEntries` it is non-negative,
so truncating to `Nat` is exact). -/
def slotIndex (fieldIndex : Int) (k : Nat) : Nat := ((k : Int) - fieldIndex).toNat

/-- slotEntries embeds one of the six guarded blocks of
`RemoveFilteredPolicy`: slot `k` puts `vk = fieldValues[k-fieldIndex]`
into the selector exactly when
`fieldIndex <= k && k < fieldIndex+len(fieldValues)` holds and that value
is non-empty.  Under the guard the index is always in range (proved in
this file), so the out-of-range `none` branch — a Go panic — is
unreachable. -/
def slotEntries (fieldIndex : Int) (fieldValues : List String) (k : Nat) : List (String × String) :=
  if fieldIndex ≤ (k : Int) ∧ (k : Int) < fieldIndex + (fieldValues.length : Int) then
    match fieldValues[slotIndex fieldIndex k]? with
    | some v => if v = "" then [] else [(slotName k, v)]
    | none => []
  else []

/-- removeFilteredSelector embeds the `selector` map built by the six blocks
of `RemoveFilteredPolicy`, as the list of its key/value pairs in slot
order (each key `v0..v5` is assigned at most once, so the list is a
faithful view of the Go map; Go iterates the map in unspecified order,
which only permutes the equal conjuncts of the final filter). -/
def removeFilteredSelector (fieldIndex : Int) (fieldValues : List String) : List (String × String) :=
  slotEntries fieldIndex fieldValues 0 ++ slotEntries fieldIndex fieldValues 1 ++
  slotEntries fieldIndex fieldValues 2 ++ slotEntries fieldIndex fieldValues 3 ++
  slotEntries fieldIndex fieldValues 4 ++ slotEntries fieldIndex fieldValues 5

/-- removeFilteredParams embeds the `parameters` slice of
`RemoveFilteredPolicy`: the mandatory `@pType` binding first, then one
`@vk` binding per selector entry. -/
def removeFilteredParams (ptype : String) (fieldIndex : Int) (fieldValues : List String) :
    List (String × String) :=
  ("@pType", ptype) ::
    (removeFilteredSelector fieldIndex fieldValues).map (fun kv => ("@" ++ kv.1, kv.2))

/-- removeFilteredQueryText embeds the `query` string of
`RemoveFilteredPolicy`: the mandatory `pType` equality, extended by one
`AND root.vk = @vk` conjunct per selector entry. -/
def removeFilteredQueryText (fieldIndex : Int) (fieldValues : List String) : String :=
  (removeFilteredSelector fieldIndex fieldValues).foldl
    (fun q kv => q ++ " AND root." ++ kv.1 ++ " = @" ++ kv.1)
    "SELECT * FROM root WHERE root.pType = @pType"

/-- isOk reports a normal outcome: no returned error and no panic. -/
def isOk {α : Type} : GoResult α → Bool
  | GoResult.ok _ => true
  | GoResult.err _ => false
  | GoResult.panic => false

/-- selectorContributes states when slot `k` carries the equality predicate
`vk = v` in the filtered-removal selector: the slot lies in the window
`fieldIndex ≤ k < fieldIndex + len(fieldValues)` and the value found at
offset `k - fieldIndex` is `v`, which is non-empty. -/
def selectorContributes (fieldIndex : Int) (fieldValues : List String) (k : Nat) (v : String) : Prop :=
  fieldIndex ≤ (k : Int) ∧ (k : Int) < fieldIndex + (fieldValues.length : Int) ∧
    fieldValues[slotIndex fieldIndex k]? = some v ∧ v ≠ ""

/-! Helper lemmas shared by the claim theorems. -/

/-- A record whose policy type is non-empty and whose section and key are
present in the model decodes by appending its token list — whatever that
list is — to the assertion's policy list. -/
lemma loadPolicyLine_found (line : CasbinRule) (m : Model) (am : AssertionMap)
    (policy : PolicyList) (h1 : line.pType ≠ "")
    (h2 : lookupA m (firstChar line.pType) = some am)
    (h3 : lookupA am line.pType = some policy) :
    loadPolicyLine line m =
      GoResult.ok (updateA m (firstChar line.pType)
        (updateA am line.pType (policy ++ [lineTokens line]))) := by
  simp [loadPolicyLine, h1, h2, h3]

/-- Each slot of the removal selector is either absent or exactly one
binding for that slot's field name. -/
lemma slotEntries_cases (fi : Int) (fvs : List String) (j : Nat) :
    slotEntries fi fvs j = [] ∨ ∃ u, slotEntries fi fvs j = [(slotName j, u)] := by
  unfold slotEntries
  split
  · rcases h : fvs[slotIndex fi j]? with _ | u
    · exact Or.inl rfl
    · by_cases hu : u = ""
      · exact Or.inl (by simp [hu])
      · exact Or.inr ⟨u, by simp [hu]⟩
  · exact Or.inl rfl

/-- A binding named after slot `k` cannot come from a slot with a different
name. -/
lemma not_mem_slotEntries (fi : Int) (fvs : List String) (j k : Nat) (v : String)
    (hne : slotName k ≠ slotName j) : (slotName k, v) ∉ slotEntries fi fvs j := by
  intro hmem
  rcases slotEntries_cases fi fvs j with h | ⟨u, h⟩
  · rw [h] at hmem
    exact absurd hmem (List.not_mem_nil _)
  · rw [h] at hmem
    simp at hmem
    exact hne hmem.1

/-- Membership of a slot-`k` binding in slot `k`'s own entries is exactly
the window-and-non-empty condition of the Go guard. -/
lemma mem_slotEntries (fi : Int) (fvs : List String) (k : Nat) (v : String) :
    ((slotName k, v) ∈ slotEntries fi fvs k) ↔ selectorContributes fi fvs k v := by
  unfold slotEntries selectorContributes
  split
  · rename_i hguard
    rcases h : fvs[slotIndex fi k]? with _ | u
    · simp [h, hguard.1, hguard.2]
    · by_cases hu : u = ""
      · simp only [h, if_pos hu]
        constructor
        · intro hmem
          exact absurd hmem (List.not_mem_nil _)
        · rintro ⟨-, -, hsome, hne⟩
          injection hsome with hv
          exact absurd (by rw [← hv]; exact hu) hne
      · simp only [h, if_neg hu]
        constructor
        · intro hmem
          simp only [List.mem_singleton, Prod.mk.injEq, true_and] at hmem
          refine ⟨hguard.1, hguard.2, ?_, ?_⟩
          · rw [hmem]
          · intro hv
            rw [hmem] at hv
            exact hu hv
        · rintro ⟨-, -, hsome, hne⟩
          injection hsome with hv
          rw [hv]
          exact List.mem_singleton_self _
  · rename_i hguard
    constructor
    · intro h
      exact absurd h (List.not_mem_nil _)
    · rintro ⟨hA, hB, _⟩
      exact absurd ⟨hA, hB⟩ hguard

/-- Membership in the whole selector reduces to membership in the one slot
with the matching field name. -/
lemma mem_selector_iff (fi : Int) (fvs : List String) (k : Nat) (v : String) (hk : k < 6) :
    ((slotName k, v) ∈ removeFilteredSelector fi fvs) ↔ (slotName k, v) ∈ slotEntries fi fvs k := by
  unfold removeFilteredSelector
  interval_cases k <;>
    simp only [List.mem_append] <;>
    constructor <;>
    intro h
  all_goals
    first
      | (rcases h with ((((h | h) | h) | h) | h) | h <;>
          first
            | exact h
            | exact absurd h (not_mem_slotEntries _ _ _ _ _ (by decide)))
      | exact Or.inl (Or.inl (Or.inl (Or.inl (Or.inl h))))
      | exact Or.inl (Or.inl (Or.inl (Or.inl (Or.inr h))))
      | exact Or.inl (Or.inl (Or.inl (Or.inr h)))
      | exact Or.inl (Or.inl (Or.inr h))
      | exact Or.inl (Or.inr h)
      | exact Or.inr h

/-- Encoding a tuple of at most six non-empty values yields a record whose
token scan reproduces exactly the tuple. -/
lemma lineTokens_savePolicyLine (checksum : String → Nat) (ptype : String) (values : List String)
    (h2 : values.length ≤ 6) (h3 : ∀ v ∈ values, v ≠ "") :
    lineTokens (savePolicyLine checksum ptype values) = values := by
  rcases values with _ | ⟨a, _ | ⟨b, _ | ⟨c, _ | ⟨d, _ | ⟨e, _ | ⟨f, rest⟩⟩⟩⟩⟩⟩
  · rfl
  · have ha := h3 a (by simp)
    simp [lineTokens, savePolicyLine, List.getD, ha]
  · have ha := h3 a (by simp)
    have hb := h3 b (by simp)
    simp [lineTokens, savePolicyLine, List.getD, ha, hb]
  · have ha := h3 a (by simp)
    have hb := h3 b (by simp)
    have hc := h3 c (by simp)
    simp [lineTokens, savePolicyLine, List.getD, ha, hb, hc]
  · have ha := h3 a (by simp)
    have hb := h3 b (by simp)
    have hc := h3 c (by simp)
    have hd := h3 d (by simp)
    simp [lineTokens, savePolicyLine, List.getD, ha, hb, hc, hd]
  · have ha := h3 a (by simp)
    have hb := h3 b (by simp)
    have hc := h3 c (by simp)
    have hd := h3 d (by simp)
    have he := h3 e (by simp)
    simp [lineTokens, savePolicyLine, List.getD, ha, hb, hc, hd, he]
  · have hrest : rest = [] := by
      cases rest with
      | nil => rfl
      | cons x t =>
        simp only [List.length_cons] at h2
        omega
    subst hrest
    have ha := h3 a (by simp)
    have hb := h3 b (by simp)
    have hc := h3 c (by simp)
    have hd := h3 d (by simp)
    have he := h3 e (by simp)
    have hf := h3 f (by simp)
    simp [lineTokens, savePolicyLine, List.getD, ha, hb, hc, hd, he, hf]

/-! Claim theorems. -/

/-- Claim C1, counterexample: decoding the record with `pType = "p"` and all
six value fields empty does change the rule list for key `"p"`: the code
reaches `LineEnd` with `tokens` still the empty slice and appends it, so
the list gains an empty rule, contradicting "contributes no rule / list
left unchanged". -/
theorem loadPolicyLine_empty_v0_changes_model :
    loadPolicyLine ⟨"i0", "p", "", "", "", "", "", ""⟩ [("p", [("p", [])])] =
      GoResult.ok [("p", [("p", [[]])])] ∧
    ([("p", [("p", [[]])])] : Model) ≠ [("p", [("p", [])])] :=
  ⟨rfl, by decide⟩

/-- Claim C1, amended: decoding a record whose policy type is non-empty and
whose section and key are present always appends the decoded tuple to the
section's rule list for the record's policy-type key — also when that
tuple is empty, which is the case exactly when `v0` is empty: a `v0`-empty
record contributes the empty rule, not no rule. -/
theorem loadPolicyLine_appends_unconditionally (line : CasbinRule) (m : Model)
    (am : AssertionMap) (policy : PolicyList) (h1 : line.pType ≠ "")
    (h2 : lookupA m (firstChar line.pType) = some am)
    (h3 : lookupA am line.pType = some policy) :
    loadPolicyLine line m =
      GoResult.ok (updateA m (firstChar line.pType)
        (updateA am line.pType (policy ++ [lineTokens line]))) ∧
    (line.v0 = "" → lineTokens line = []) :=
  ⟨loadPolicyLine_found line m am policy h1 h2 h3, fun h => by simp [lineTokens, h]⟩

/-- Claim C1, witness: the amended theorem evaluated on the all-empty-fields
record over a model holding an empty `"p"` assertion. -/
theorem loadPolicyLine_appends_unconditionally_witness :
    loadPolicyLine ⟨"i0", "p", "", "", "", "", "", ""⟩ [("p", [("p", [])])] =
      GoResult.ok (updateA [("p", [("p", [])])] (firstChar "p")
        (updateA [("p", [])] "p" ([] ++ [lineTokens ⟨"i0", "p", "", "", "", "", "", ""⟩]))) ∧
    ((⟨"i0", "p", "", "", "", "", "", ""⟩ : CasbinRule).v0 = "" →
      lineTokens ⟨"i0", "p", "", "", "", "", "", ""⟩ = []) :=
  loadPolicyLine_appends_unconditionally ⟨"i0", "p", "", "", "", "", "", ""⟩
    [("p", [("p", [])])] [("p", [])] [] (by decide) (by decide) (by decide)

/-- Claim C2, code bug: `LoadPolicy` issues `SELECT * FROM c` with partition
key `"p"` on a container partitioned by `/pType`, so a stored record with
`pType = "g"` is never fetched and the model is returned unchanged — even
though decoding that record (second conjunct) would have added the rule
`["alice", "data2_admin"]` to the `"g"` section as the claim requires. -/
theorem loadPolicy_omits_non_p_records :
    LoadPolicy ⟨false, [⟨"i1", "g", "alice", "data2_admin", "", "", "", ""⟩]⟩
        [("p", [("p", [])]), ("g", [("g", [])])] none =
      (⟨false, [⟨"i1", "g", "alice", "data2_admin", "", "", "", ""⟩]⟩,
        GoResult.ok [("p", [("p", [])]), ("g", [("g", [])])]) ∧
    loadLines [⟨"i1", "g", "alice", "data2_admin", "", "", "", ""⟩]
        [("p", [("p", [])]), ("g", [("g", [])])] =
      GoResult.ok [("p", [("p", [])]), ("g", [("g", [["alice", "data2_admin"]])])] :=
  ⟨rfl, rfl⟩

/-- Claim C3: the token scan of `loadPolicyLine` takes `v0..v5` in order only
while they are non-empty — it is exactly `takeWhile (· non-empty)` on the
six fields, so it stops at the first empty field even when a later field
is non-empty; in particular the record with `v0 = "a"`, `v1 = ""`,
`v2 = "b"` decodes to the single-element tuple `["a"]`, dropping `"b"`. -/
theorem lineTokens_stops_at_first_empty (line : CasbinRule) :
    lineTokens line =
      List.takeWhile (fun v => v != "")
        [line.v0, line.v1, line.v2, line.v3, line.v4, line.v5] ∧
    lineTokens ⟨"", "p", "a", "", "b", "", "", ""⟩ = ["a"] := by
  constructor
  · by_cases h0 : line.v0 = "" <;> by_cases h1 : line.v1 = "" <;>
      by_cases h2 : line.v2 = "" <;> by_cases h3 : line.v3 = "" <;>
      by_cases h4 : line.v4 = "" <;> by_cases h5 : line.v5 = "" <;>
      simp [lineTokens, List.takeWhile_cons, h0, h1, h2, h3, h4, h5]
  · rfl

/-- Claim C4: in the filtered-removal query builder, slot `k` (0..5)
contributes the equality binding for `vk` with value `v` exactly when the
window condition `fieldIndex ≤ k < fieldIndex + len(fieldValues)` holds
and the value at offset `k - fieldIndex` is `v ≠ ""`; the parameter list
always starts with the mandatory `@pType` equality; slots outside the
window (including positions below zero) or with empty values contribute
nothing. -/
theorem removeFiltered_selector_spec (ptype : String) (fieldIndex : Int)
    (fieldValues : List String) (k : Nat) (v : String) (hk : k < 6) :
    (removeFilteredParams ptype fieldIndex fieldValues).head? = some ("@pType", ptype) ∧
    (((slotName k, v) ∈ removeFilteredSelector fieldIndex fieldValues) ↔
      selectorContributes fieldIndex fieldValues k v) :=
  ⟨rfl, (mem_selector_iff fieldIndex fieldValues k v hk).trans
    (mem_slotEntries fieldIndex fieldValues k v)⟩

/-- Claim C4, witness: the builder at `fieldIndex = -1`,
`fieldValues = ["x", "y", "z"]`: `"y"` lands in slot 0 (`"x"` falls below
slot 0 and is dropped). -/
theorem removeFiltered_selector_spec_witness :
    (removeFilteredParams "p" (-1) ["x", "y", "z"]).head? = some ("@pType", "p") ∧
    (((slotName 0, "y") ∈ removeFilteredSelector (-1) ["x", "y", "z"]) ↔
      selectorContributes (-1) ["x", "y", "z"] 0 "y") :=
  removeFiltered_selector_spec "p" (-1) ["x", "y", "z"] 0 "y" (by decide)

/-- Claim C5: the encoded record's id is the hex digest of the checksum of
the policy type followed by every input value, all joined with commas, and
encoding is deterministic: the same input yields the identical record. -/
theorem savePolicyLine_id_spec (checksum : String → Nat) (ptype : String)
    (values : List String) (_hlen : values.length ≤ 6) :
    (savePolicyLine checksum ptype values).id =
      toHex (checksum (values.foldl (fun acc v => acc ++ "," ++ v) ptype)) ∧
    savePolicyLine checksum ptype values = savePolicyLine checksum ptype values :=
  ⟨rfl, rfl⟩

/-- Claim C5, witness: the id formula evaluated on the rule
`p, alice, data1, read` with string length as the abstract checksum. -/
theorem savePolicyLine_id_spec_witness :
    (savePolicyLine (fun s => s.length) "p" ["alice", "data1", "read"]).id =
      toHex ((fun s : String => s.length)
        (List.foldl (fun acc v => acc ++ "," ++ v) "p" ["alice", "data1", "read"])) ∧
    savePolicyLine (fun s => s.length) "p" ["alice", "data1", "read"] =
      savePolicyLine (fun s => s.length) "p" ["alice", "data1", "read"] :=
  savePolicyLine_id_spec (fun s => s.length) "p" ["alice", "data1", "read"] (by decide)

/-- Claim C6: for a tuple of 0–6 non-empty strings (no internal gaps, by
construction of the encoder) and a non-empty policy type whose section —
the first character of the policy type — and key are present in the model,
decoding the encoded record appends exactly the original tuple to that
section's rule list for the policy-type key. -/
theorem decode_encode_roundtrip (checksum : String → Nat) (ptype : String)
    (values : List String) (m : Model) (am : AssertionMap) (policy : PolicyList)
    (h1 : ptype ≠ "") (h2 : values.length ≤ 6) (h3 : ∀ v ∈ values, v ≠ "")
    (h4 : lookupA m (firstChar ptype) = some am)
    (h5 : lookupA am ptype = some policy) :
    loadPolicyLine (savePolicyLine checksum ptype values) m =
      GoResult.ok (updateA m (firstChar ptype)
        (updateA am ptype (policy ++ [values]))) := by
  have ht : lineTokens (savePolicyLine checksum ptype values) = values :=
    lineTokens_savePolicyLine checksum ptype values h2 h3
  rw [loadPolicyLine_found (savePolicyLine checksum ptype values) m am policy h1 h4 h5, ht]
  rfl

/-- Claim C6, witness: the round trip evaluated on
`("p", ["alice", "data1", "read"])` into a model with an empty `"p"`
assertion. -/
theorem decode_encode_roundtrip_witness :
    loadPolicyLine (savePolicyLine (fun s => s.length) "p" ["alice", "data1", "read"])
        [("p", [("p", [])])] =
      GoResult.ok (updateA [("p", [("p", [])])] (firstChar "p")
        (updateA [("p", [])] "p" ([] ++ [["alice", "data1", "read"]]))) :=
  decode_encode_roundtrip (fun s => s.length) "p" ["alice", "data1", "read"]
    [("p", [("p", [])])] [("p", [])] [] (by decide) (by decide) (by decide)
    (by decide) (by decide)

/-- Claim C7: whenever the is-filtered flag is true, `SavePolicy` returns the
filtered-state error immediately and performs no destructive store call:
the adapter — its backing collection included — is returned unchanged. -/
theorem savePolicy_rejects_filtered (checksum : String → Nat) (a : Adapter) (m : Model)
    (h : a.filtered = true) :
    SavePolicy checksum a m = (a, some "cannot save a filtered policy") := by
  simp [SavePolicy, h]

/-- Claim C7, witness: a filtered adapter with a non-empty store keeps its
store and gets the error. -/
theorem savePolicy_rejects_filtered_witness :
    SavePolicy (fun s => s.length) ⟨true, [⟨"i", "p", "a", "", "", "", "", ""⟩]⟩ [] =
      (⟨true, [⟨"i", "p", "a", "", "", "", "", ""⟩]⟩, some "cannot save a filtered policy") :=
  savePolicy_rejects_filtered (fun s => s.length)
    ⟨true, [⟨"i", "p", "a", "", "", "", "", ""⟩]⟩ [] rfl

/-- Claim C8, counterexample: decoding is not total on every record — a
record whose policy type is the empty string makes `key[:1]` panic
(slice bounds out of range), so this malformed record does not complete
without error. -/
theorem loadPolicyLine_empty_ptype_panics :
    loadPolicyLine ⟨"i0", "", "a", "", "", "", "", ""⟩ [("p", [("p", [])])] =
      GoResult.panic :=
  rfl

/-- Claim C8, amended: decoding completes normally — no returned error, no
panic — for every record whose policy type is non-empty and whose derived
section and policy-type key are present in the model; malformed field
contents, non-contiguous fields included, never cause a failure. -/
theorem loadPolicyLine_total_on_present_assertion (line : CasbinRule) (m : Model)
    (am : AssertionMap) (policy : PolicyList) (h1 : line.pType ≠ "")
    (h2 : lookupA m (firstChar line.pType) = some am)
    (h3 : lookupA am line.pType = some policy) :
    isOk (loadPolicyLine line m) = true := by
  rw [loadPolicyLine_found line m am policy h1 h2 h3]
  rfl

/-- Claim C8, witness: the non-contiguous record `v0 = "a"`, `v1 = ""`,
`v2 = "b"` decodes without error. -/
theorem loadPolicyLine_total_on_present_assertion_witness :
    isOk (loadPolicyLine ⟨"i0", "p", "a", "", "b", "", "", ""⟩ [("p", [("p", [])])]) = true :=
  loadPolicyLine_total_on_present_assertion ⟨"i0", "p", "a", "", "b", "", "", ""⟩
    [("p", [("p", [])])] [("p", [])] [] (by decide) (by decide) (by decide)

/-- Claim C9, counterexample: the is-filtered flag is not set "exactly on
success": a `LoadFilteredPolicy` call whose store query fails still leaves
the flag true, because the assignment happens before the query runs. -/
theorem loadFiltered_flag_set_despite_failure :
    (LoadFilteredPolicy ⟨false, []⟩ [] [] (some "network error")).2 =
      GoResult.err "network error" ∧
    ((LoadFilteredPolicy ⟨false, []⟩ [] [] (some "network error")).1).filtered = true :=
  ⟨rfl, rfl⟩

/-- Claim C9, amended: `LoadFilteredPolicy` sets the is-filtered flag to true
at its start, regardless of the call's outcome; `LoadPolicy` sets it to
false at its start, likewise regardless of outcome; `IsFiltered` reports
the flag's current value. -/
theorem filtered_flag_transitions (a : Adapter) (m : Model) (fetched : List CasbinRule)
    (qerr : Option String) :
    ((LoadFilteredPolicy a m fetched qerr).1).filtered = true ∧
    ((LoadPolicy a m qerr).1).filtered = false ∧
    IsFiltered a = a.filtered := by
  refine ⟨?_, ?_, rfl⟩ <;> cases qerr <;> rfl

/-- Claim C10: the guard of each slot block of `RemoveFilteredPolicy`
guarantees the `fieldValues[k - fieldIndex]` access is in bounds: whenever
`fieldIndex ≤ k < fieldIndex + len(fieldValues)`, the index `k - fieldIndex`
is a valid position of `fieldValues`, so the lookup yields a value. -/
theorem removeFiltered_index_in_bounds (fieldIndex : Int) (fieldValues : List String)
    (k : Nat) (h1 : fieldIndex ≤ (k : Int))
    (h2 : (k : Int) < fieldIndex + (fieldValues.length : Int)) :
    slotIndex fieldIndex k < fieldValues.length ∧
    (fieldValues[slotIndex fieldIndex k]?).isSome = true := by
  have hlt : slotIndex fieldIndex k < fieldValues.length := by
    unfold slotIndex
    omega
  exact ⟨hlt, by simp [List.getElem?_eq_getElem hlt]⟩

/-- Claim C10, witness: at `fieldIndex = -1` and three values, slot 1 reads
offset 2, which is in bounds. -/
theorem removeFiltered_index_in_bounds_witness :
    slotIndex (-1) 1 < (["x", "y", "z"] : List String).length ∧
    ((["x", "y", "z"] : List String)[slotIndex (-1) 1]?).isSome = true :=
  removeFiltered_index_in_bounds (-1) ["x", "y", "z"] 1 (by decide) (by decide)

end CosmosAdapter
